import Mathlib

/-!
Verification of the HexMaker bounding-box logic (BoundsMath) and the
error-routing structure of the orchestration script.

The source is an Adobe Illustrator ExtendScript.  Its portable logic works on
axis-aligned rectangles given as arrays `[left, top, right, bottom]` in a Y-up
coordinate space, with JavaScript numbers modelled here as rationals.  Each
definition below is a direct transcription of the corresponding function in
`src/unnamed/part_004` (the latest revision; `src/unnamed/part_000` contains
textually identical copies of the geometry helpers).
-/

namespace HexMaker

/-- A rectangle `[left, top, right, bottom]` in Y-up coordinates, as produced
by the host's `geometricBounds` arrays. -/
structure Bounds where
  left : ℚ
  top : ℚ
  right : ℚ
  bottom : ℚ
deriving DecidableEq, Repr

/-- `var POINTS_PER_CM = 28.3464567;` (part_004 line 14). -/
def POINTS_PER_CM : ℚ := 28.3464567

/-- `cm * POINTS_PER_CM`, the cm→points conversion used throughout. -/
def cmToPoints (cm : ℚ) : ℚ := cm * POINTS_PER_CM

/-- `boundsIntersect(bounds1, bounds2)` (part_004 lines 727–736):
`horizontalOverlap = bounds1[0] < bounds2[2] && bounds1[2] > bounds2[0]`,
`verticalOverlap = bounds1[3] < bounds2[1] && bounds1[1] > bounds2[3]`,
returning `horizontalOverlap && verticalOverlap`. -/
def boundsIntersect (bounds1 bounds2 : Bounds) : Bool :=
  let horizontalOverlap := decide (bounds1.left < bounds2.right) && decide (bounds1.right > bounds2.left)
  let verticalOverlap := decide (bounds1.bottom < bounds2.top) && decide (bounds1.top > bounds2.bottom)
  horizontalOverlap && verticalOverlap

/-- One pass of the accumulation loop shared by `getLayerBounds` and
`scaleToFit`: `bounds[0] = Math.min(bounds[0], itemBounds[0])`,
`bounds[1] = Math.max(bounds[1], itemBounds[1])`,
`bounds[2] = Math.max(bounds[2], itemBounds[2])`,
`bounds[3] = Math.min(bounds[3], itemBounds[3])`. -/
def unionStep (bounds itemBounds : Bounds) : Bounds :=
  { left := min bounds.left itemBounds.left
    top := max bounds.top itemBounds.top
    right := max bounds.right itemBounds.right
    bottom := min bounds.bottom itemBounds.bottom }

/-- `getLayerBounds(layer)` (part_004 lines 682–698): `null` when the layer has
no page items, otherwise the fold of `unionStep` over the items' geometric
bounds starting from the first item's bounds. -/
def getLayerBounds (items : List Bounds) : Option Bounds :=
  match items with
  | [] => none
  | b :: rest => some (rest.foldl unionStep b)

/-- The scale factor computed by `scaleToFit(selection, targetWidthCm,
targetHeightCm)` (part_004 lines 458–499): the selection's combined bounds are
accumulated exactly as in `getLayerBounds`, then
`scaleX = (targetWidthPt / currentWidth) * 100`,
`scaleY = (targetHeightPt / currentHeight) * 100`, and the result is
`Math.min(scaleX, scaleY)`.  `none` corresponds to the early return on an
empty selection. -/
def scaleToFitFactor (selection : List Bounds) (targetWidthCm targetHeightCm : ℚ) : Option ℚ :=
  match selection with
  | [] => none
  | b :: rest =>
    let targetWidthPt := targetWidthCm * POINTS_PER_CM
    let targetHeightPt := targetHeightCm * POINTS_PER_CM
    let bounds := rest.foldl unionStep b
    let currentWidth := bounds.right - bounds.left
    let currentHeight := bounds.top - bounds.bottom
    let scaleX := targetWidthPt / currentWidth * 100
    let scaleY := targetHeightPt / currentHeight * 100
    some (min scaleX scaleY)

/-- The `(deltaX, deltaY)` computed by `positionGroupRelativeToGroup(
sponsorGroup, hexGroup, positionType)` (part_004 lines 1039–1065): centers and
dimensions are derived from the two groups' geometric bounds, then
`"Bottom Sponsor"` aligns horizontal centers and bottom edges while
`"Middle Sponsor"` aligns both centers; any other mode leaves `(0, 0)`. -/
def positionDeltas (sponsorBounds hexBounds : Bounds) (positionType : String) : ℚ × ℚ :=
  let sponsorWidth := sponsorBounds.right - sponsorBounds.left
  let sponsorHeight := sponsorBounds.top - sponsorBounds.bottom
  let sponsorCenterX := sponsorBounds.left + sponsorWidth / 2
  let sponsorCenterY := sponsorBounds.bottom + sponsorHeight / 2
  let hexWidth := hexBounds.right - hexBounds.left
  let hexHeight := hexBounds.top - hexBounds.bottom
  let hexCenterX := hexBounds.left + hexWidth / 2
  let hexCenterY := hexBounds.bottom + hexHeight / 2
  if positionType = "Bottom Sponsor" then
    (hexCenterX - sponsorCenterX, hexBounds.bottom - sponsorBounds.bottom)
  else if positionType = "Middle Sponsor" then
    (hexCenterX - sponsorCenterX, hexCenterY - sponsorCenterY)
  else
    (0, 0)

/-- Effect of the host's `translate(deltaX, deltaY)` on a geometric bounding
box: every edge is shifted by the corresponding delta. -/
def translateBounds (b : Bounds) (deltaX deltaY : ℚ) : Bounds :=
  { left := b.left + deltaX
    top := b.top + deltaY
    right := b.right + deltaX
    bottom := b.bottom + deltaY }

/-- A page item as traversed by `collectPathItems`: a `PathItem`, a
`CompoundPathItem` (treated as a single unit) or a `GroupItem` with children.
The numeric `id` stands for the host object's identity, which the script
relies on when it deletes the collected references. -/
inductive PageItem where
  | path (id : ℕ) (bounds : Bounds)
  | group (children : List PageItem)
  | compound (id : ℕ) (bounds : Bounds)

/-- `collectPathItems(items, pathArray)` (part_004 lines 706–719): walks the
items in order, appending each `PathItem` and `CompoundPathItem` (with its
bounds) and recursing into each `GroupItem`'s `pageItems`. -/
def collectPathItems (items : List PageItem) : List (ℕ × Bounds) :=
  match items with
  | [] => []
  | PageItem.path i b :: rest => (i, b) :: collectPathItems rest
  | PageItem.group cs :: rest => collectPathItems cs ++ collectPathItems rest
  | PageItem.compound i b :: rest => (i, b) :: collectPathItems rest

/-- Deleting the marked page items: `pathsToDelete[i].remove()` removes each
marked `PathItem`/`CompoundPathItem` node from its parent, leaving group
structure otherwise intact. -/
def removePaths (toDelete : List ℕ) (items : List PageItem) : List PageItem :=
  match items with
  | [] => []
  | PageItem.path i b :: rest =>
    if i ∈ toDelete then removePaths toDelete rest
    else PageItem.path i b :: removePaths toDelete rest
  | PageItem.group cs :: rest =>
    PageItem.group (removePaths toDelete cs) :: removePaths toDelete rest
  | PageItem.compound i b :: rest =>
    if i ∈ toDelete then removePaths toDelete rest
    else PageItem.compound i b :: removePaths toDelete rest

/-- `removeOverlappingPathsInGroups(hexGroup, sponsorGroup)` (part_004 lines
1070–1086): the sponsor group's geometric bounds are read once at entry, all
path items are collected from the hex group, those whose bounds intersect the
sponsor bounds are gathered into `pathsToDelete`, and then each of those is
removed. -/
def removeOverlappingPathsInGroups (hexItems : List PageItem) (sponsorBounds : Bounds) :
    List PageItem :=
  let hexPaths := collectPathItems hexItems
  let pathsToDelete := hexPaths.filter (fun p => boundsIntersect p.2 sponsorBounds)
  removePaths (pathsToDelete.map Prod.fst) hexItems

/-- A thrown JavaScript `Error`: its `message` together with the source line of
the `throw` site (ExtendScript's `e.line`). -/
structure JSError where
  message : String
  line : ℕ
deriving DecidableEq, Repr

/-- The `try { … } catch (e) { throw new Error(description + e.message); }`
pattern used by the wrapped orchestration helpers: a normal body completes
unchanged, a thrown body is replaced by a fresh error whose message is the
static description concatenated with the original message and whose line is
the line of the `throw new Error` statement. -/
def tryRethrow (description : String) (rethrowLine : ℕ) (body : Except JSError Unit) :
    Except JSError Unit :=
  match body with
  | Except.ok _ => Except.ok ()
  | Except.error e => Except.error ⟨description ++ e.message, rethrowLine⟩

/-- `importSVGByOpening(svgFile, targetDoc, targetLayer)` (part_004 lines
339–368), abstracted over the outcome of its host-call sequence (open, select,
copy, activate, paste, close): the whole body is wrapped in a catch that
rethrows `"Failed to import SVG: " + e.message` from line 366. -/
def importSVGByOpening (body : Except JSError Unit) : Except JSError Unit :=
  tryRethrow "Failed to import SVG: " 366 body

/-- `positionGroupRelativeToGroup(sponsorGroup, hexGroup, positionType)`
(part_004 lines 1039–1065) with its host calls made explicit: the two
`geometricBounds` reads and the final `translate` may each throw.  The body
has NO try/catch, so any host error propagates to the caller unchanged. -/
def positionGroupRelativeToGroupRun (sponsorBoundsRead hexBoundsRead : Except JSError Bounds)
    (positionType : String) (translate : ℚ → ℚ → Except JSError Unit) :
    Except JSError Unit := do
  let sponsorBounds ← sponsorBoundsRead
  let hexBounds ← hexBoundsRead
  let d := positionDeltas sponsorBounds hexBounds positionType
  translate d.1 d.2

/-- `main()` (part_004 lines 28–330): the entire body sits inside a single
`try`; the `catch` displays `alert("Error: " + e.message + "\nLine: " +
e.line)` and falls off the end of the function.  `body` abstracts the
orchestration steps; the result is the error alert shown (`none` when the body
completed or returned early on its own). -/
def mainRun (body : Except JSError Unit) : Except JSError (Option String) :=
  match body with
  | Except.ok _ => Except.ok none
  | Except.error e =>
    Except.ok (some ("Error: " ++ e.message ++ "\nLine: " ++ toString e.line))

/-- A document layer as inspected by `removeEmptyLayers`: how many page items
it holds, and whether the host's `layer.remove()` would throw (`some message`)
or succeed (`none`). -/
structure Layer where
  pageItemCount : ℕ
  removeError : Option String
deriving DecidableEq, Repr

/-- The `for (var i = doc.layers.length - 1; i >= 0; i--)` loop inside
`removeEmptyLayers` (part_004 lines 798–813): layers are visited from the last
index down to 0, each empty layer is removed, and a throw from `remove()`
aborts the rest of the loop.  Returns the remaining layers together with the
escaped error, if any. -/
def cleanupPass (layers : List Layer) : List Layer × Option String :=
  match layers with
  | [] => ([], none)
  | layer :: rest =>
    match cleanupPass rest with
    | (rest2, some e) => (layer :: rest2, some e)
    | (rest2, none) =>
      if layer.pageItemCount = 0 then
        match layer.removeError with
        | some e => (layer :: rest2, some e)
        | none => (rest2, none)
      else (layer :: rest2, none)

/-- `removeEmptyLayers(doc)` (part_004 lines 798–813): the backwards removal
loop runs inside a `try` whose `catch` body is empty, so an error escaping the
loop is swallowed and the function returns normally with whatever document
state the loop reached. -/
def removeEmptyLayers (layers : List Layer) : Except String (List Layer) :=
  match cleanupPass layers with
  | (remaining, _) => Except.ok remaining

/-! ### Helper lemmas -/

theorem foldl_min_le_init (l : List ℚ) (a : ℚ) : l.foldl min a ≤ a := by
  induction l generalizing a with
  | nil => exact le_refl a
  | cons c l ih => exact le_trans (ih (min a c)) (min_le_left a c)

theorem foldl_min_le_mem (l : List ℚ) (a : ℚ) (x : ℚ) (hx : x ∈ l) : l.foldl min a ≤ x := by
  induction l generalizing a with
  | nil => cases hx
  | cons c l ih =>
    rcases List.mem_cons.mp hx with h | h
    · subst h
      exact le_trans (foldl_min_le_init l (min a x)) (min_le_right a x)
    · exact ih (min a c) h

theorem foldl_min_attained (l : List ℚ) (a : ℚ) : l.foldl min a = a ∨ l.foldl min a ∈ l := by
  induction l generalizing a with
  | nil => exact Or.inl rfl
  | cons c l ih =>
    rcases ih (min a c) with h | h
    · rcases min_choice a c with hm | hm
      · exact Or.inl (by rw [List.foldl_cons, h, hm])
      · exact Or.inr (by rw [List.foldl_cons, h, hm]; exact List.mem_cons_self c l)
    · exact Or.inr (List.mem_cons_of_mem c h)

theorem foldl_max_init_le (l : List ℚ) (a : ℚ) : a ≤ l.foldl max a := by
  induction l generalizing a with
  | nil => exact le_refl a
  | cons c l ih => exact le_trans (le_max_left a c) (ih (max a c))

theorem foldl_max_mem_le (l : List ℚ) (a : ℚ) (x : ℚ) (hx : x ∈ l) : x ≤ l.foldl max a := by
  induction l generalizing a with
  | nil => cases hx
  | cons c l ih =>
    rcases List.mem_cons.mp hx with h | h
    · subst h
      exact le_trans (le_max_right a x) (foldl_max_init_le l (max a x))
    · exact ih (max a c) h

theorem foldl_max_attained (l : List ℚ) (a : ℚ) : l.foldl max a = a ∨ l.foldl max a ∈ l := by
  induction l generalizing a with
  | nil => exact Or.inl rfl
  | cons c l ih =>
    rcases ih (max a c) with h | h
    · rcases max_choice a c with hm | hm
      · exact Or.inl (by rw [List.foldl_cons, h, hm])
      · exact Or.inr (by rw [List.foldl_cons, h, hm]; exact List.mem_cons_self c l)
    · exact Or.inr (List.mem_cons_of_mem c h)

theorem foldl_unionStep_left (rest : List Bounds) (b : Bounds) :
    (rest.foldl unionStep b).left = (rest.map Bounds.left).foldl min b.left := by
  induction rest generalizing b with
  | nil => rfl
  | cons c rest ih => simpa [unionStep] using ih (unionStep b c)

theorem foldl_unionStep_top (rest : List Bounds) (b : Bounds) :
    (rest.foldl unionStep b).top = (rest.map Bounds.top).foldl max b.top := by
  induction rest generalizing b with
  | nil => rfl
  | cons c rest ih => simpa [unionStep] using ih (unionStep b c)

theorem foldl_unionStep_right (rest : List Bounds) (b : Bounds) :
    (rest.foldl unionStep b).right = (rest.map Bounds.right).foldl max b.right := by
  induction rest generalizing b with
  | nil => rfl
  | cons c rest ih => simpa [unionStep] using ih (unionStep b c)

theorem foldl_unionStep_bottom (rest : List Bounds) (b : Bounds) :
    (rest.foldl unionStep b).bottom = (rest.map Bounds.bottom).foldl min b.bottom := by
  induction rest generalizing b with
  | nil => rfl
  | cons c rest ih => simpa [unionStep] using ih (unionStep b c)

/-! ### Claim theorems -/

/-- C1: `boundsIntersect` returns `true` iff `a.left < b.right`, `a.right >
b.left`, `a.bottom < b.top` and `a.top > b.bottom` all hold strictly; in
particular two rectangles sharing only an edge or a corner (one of the four
corresponding coordinates equal) are reported as not overlapping. -/
theorem boundsIntersect_strict_characterization (a b : Bounds) :
    (boundsIntersect a b = true ↔
      (a.left < b.right ∧ a.right > b.left ∧ a.bottom < b.top ∧ a.top > b.bottom)) ∧
    ((a.right = b.left ∨ a.left = b.right ∨ a.top = b.bottom ∨ a.bottom = b.top) →
      boundsIntersect a b = false) := by
  have hiff : boundsIntersect a b = true ↔
      (a.left < b.right ∧ a.right > b.left ∧ a.bottom < b.top ∧ a.top > b.bottom) := by
    simp [boundsIntersect, and_assoc]
  refine ⟨hiff, ?_⟩
  intro hedge
  cases hb : boundsIntersect a b with
  | false => rfl
  | true =>
    obtain ⟨h1, h2, h3, h4⟩ := hiff.mp hb
    rcases hedge with he | he | he | he
    · rw [he] at h2; exact absurd h2 (lt_irrefl b.left)
    · rw [he] at h1; exact absurd h1 (lt_irrefl b.right)
    · rw [he] at h4; exact absurd h4 (lt_irrefl b.bottom)
    · rw [he] at h3; exact absurd h3 (lt_irrefl b.top)

/-- Witness for C1: two unit squares sharing the vertical edge `x = 2` do not
intersect. -/
theorem boundsIntersect_strict_characterization_witness :
    boundsIntersect ⟨0, 1, 2, 0⟩ ⟨2, 1, 4, 0⟩ = false :=
  (boundsIntersect_strict_characterization ⟨0, 1, 2, 0⟩ ⟨2, 1, 4, 0⟩).2 (Or.inl rfl)

/-- C9: the intersection test is symmetric. -/
theorem boundsIntersect_symm (a b : Bounds) : boundsIntersect a b = boundsIntersect b a := by
  simp only [boundsIntersect, ← Bool.decide_and, decide_eq_decide]
  constructor
  · rintro ⟨⟨h1, h2⟩, h3, h4⟩
    exact ⟨⟨h2, h1⟩, h4, h3⟩
  · rintro ⟨⟨h1, h2⟩, h3, h4⟩
    exact ⟨⟨h2, h1⟩, h4, h3⟩

/-- C10: the combined bounding box of a one-element list is that rectangle
unchanged. -/
theorem getLayerBounds_singleton (r : Bounds) : getLayerBounds [r] = some r := rfl

/-- C4: in "Bottom Sponsor" mode, translating the sponsor bounds by the
computed `(deltaX, deltaY)` makes its horizontal center coincide with the hex
horizontal center and its bottom edge coincide with the hex bottom edge, with
zero residual vertical gap. -/
theorem positionDeltas_bottom_aligns (s h : Bounds) :
    ((translateBounds s (positionDeltas s h "Bottom Sponsor").1
        (positionDeltas s h "Bottom Sponsor").2).left +
      (translateBounds s (positionDeltas s h "Bottom Sponsor").1
        (positionDeltas s h "Bottom Sponsor").2).right) / 2 = (h.left + h.right) / 2 ∧
    (translateBounds s (positionDeltas s h "Bottom Sponsor").1
        (positionDeltas s h "Bottom Sponsor").2).bottom = h.bottom := by
  constructor
  · simp [positionDeltas, translateBounds]
    ring
  · simp [positionDeltas, translateBounds]

/-- C7: `removeEmptyLayers` never raises an error to its caller: whatever the
layers' contents and however `layer.remove()` fails, the result is `ok`. -/
theorem removeEmptyLayers_never_errors (layers : List Layer) :
    ∃ remaining, removeEmptyLayers layers = Except.ok remaining := by
  refine ⟨(cleanupPass layers).1, ?_⟩
  unfold removeEmptyLayers
  rcases hc : cleanupPass layers with ⟨remaining, err⟩
  rfl

/-- C2: on a non-empty list the union is the rectangle whose left is the
minimum of the lefts, top the maximum of the tops, right the maximum of the
rights and bottom the minimum of the bottoms (each bound both dominates every
item and is attained by some item); on the empty list it returns `none`. -/
theorem getLayerBounds_union_spec (items : List Bounds) :
    (items = [] → getLayerBounds items = none) ∧
    (∀ u, getLayerBounds items = some u →
      (∀ x ∈ items, u.left ≤ x.left ∧ x.top ≤ u.top ∧ x.right ≤ u.right ∧ u.bottom ≤ x.bottom) ∧
      ((∃ x ∈ items, u.left = x.left) ∧ (∃ x ∈ items, u.top = x.top) ∧
       (∃ x ∈ items, u.right = x.right) ∧ (∃ x ∈ items, u.bottom = x.bottom))) := by
  cases items with
  | nil =>
    refine ⟨fun _ => rfl, fun u hu => ?_⟩
    simp [getLayerBounds] at hu
  | cons b rest =>
    refine ⟨fun h => (nomatch h), fun u hu => ?_⟩
    simp only [getLayerBounds, Option.some.injEq] at hu
    subst hu
    constructor
    · intro x hx
      rcases List.mem_cons.mp hx with h | h
      · subst h
        refine ⟨?_, ?_, ?_, ?_⟩
        · rw [foldl_unionStep_left]; exact foldl_min_le_init _ _
        · rw [foldl_unionStep_top]; exact foldl_max_init_le _ _
        · rw [foldl_unionStep_right]; exact foldl_max_init_le _ _
        · rw [foldl_unionStep_bottom]; exact foldl_min_le_init _ _
      · refine ⟨?_, ?_, ?_, ?_⟩
        · rw [foldl_unionStep_left]; exact foldl_min_le_mem _ _ _ (List.mem_map_of_mem _ h)
        · rw [foldl_unionStep_top]; exact foldl_max_mem_le _ _ _ (List.mem_map_of_mem _ h)
        · rw [foldl_unionStep_right]; exact foldl_max_mem_le _ _ _ (List.mem_map_of_mem _ h)
        · rw [foldl_unionStep_bottom]; exact foldl_min_le_mem _ _ _ (List.mem_map_of_mem _ h)
    · refine ⟨?_, ?_, ?_, ?_⟩
      · rw [foldl_unionStep_left]
        rcases foldl_min_attained (rest.map Bounds.left) b.left with h | h
        · exact ⟨b, List.mem_cons_self b rest, h⟩
        · obtain ⟨x, hx, hxe⟩ := List.mem_map.mp h
          exact ⟨x, List.mem_cons_of_mem b hx, hxe.symm⟩
      · rw [foldl_unionStep_top]
        rcases foldl_max_attained (rest.map Bounds.top) b.top with h | h
        · exact ⟨b, List.mem_cons_self b rest, h⟩
        · obtain ⟨x, hx, hxe⟩ := List.mem_map.mp h
          exact ⟨x, List.mem_cons_of_mem b hx, hxe.symm⟩
      · rw [foldl_unionStep_right]
        rcases foldl_max_attained (rest.map Bounds.right) b.right with h | h
        · exact ⟨b, List.mem_cons_self b rest, h⟩
        · obtain ⟨x, hx, hxe⟩ := List.mem_map.mp h
          exact ⟨x, List.mem_cons_of_mem b hx, hxe.symm⟩
      · rw [foldl_unionStep_bottom]
        rcases foldl_min_attained (rest.map Bounds.bottom) b.bottom with h | h
        · exact ⟨b, List.mem_cons_self b rest, h⟩
        · obtain ⟨x, hx, hxe⟩ := List.mem_map.mp h
          exact ⟨x, List.mem_cons_of_mem b hx, hxe.symm⟩

/-- Witness for C2: the union of `[0,5,2,0]` and `[1,7,3,-1]` is `[0,7,3,-1]`,
which dominates and attains every bound. -/
theorem getLayerBounds_union_spec_witness :
    (∀ x ∈ [(⟨0, 5, 2, 0⟩ : Bounds), ⟨1, 7, 3, -1⟩],
      (⟨0, 7, 3, -1⟩ : Bounds).left ≤ x.left ∧ x.top ≤ (⟨0, 7, 3, -1⟩ : Bounds).top ∧
      x.right ≤ (⟨0, 7, 3, -1⟩ : Bounds).right ∧ (⟨0, 7, 3, -1⟩ : Bounds).bottom ≤ x.bottom) ∧
    ((∃ x ∈ [(⟨0, 5, 2, 0⟩ : Bounds), ⟨1, 7, 3, -1⟩], (⟨0, 7, 3, -1⟩ : Bounds).left = x.left) ∧
     (∃ x ∈ [(⟨0, 5, 2, 0⟩ : Bounds), ⟨1, 7, 3, -1⟩], (⟨0, 7, 3, -1⟩ : Bounds).top = x.top) ∧
     (∃ x ∈ [(⟨0, 5, 2, 0⟩ : Bounds), ⟨1, 7, 3, -1⟩], (⟨0, 7, 3, -1⟩ : Bounds).right = x.right) ∧
     (∃ x ∈ [(⟨0, 5, 2, 0⟩ : Bounds), ⟨1, 7, 3, -1⟩],
        (⟨0, 7, 3, -1⟩ : Bounds).bottom = x.bottom)) :=
  (getLayerBounds_union_spec [⟨0, 5, 2, 0⟩, ⟨1, 7, 3, -1⟩]).2 ⟨0, 7, 3, -1⟩
    (by norm_num [getLayerBounds, unionStep, min_def, max_def])

/-- C3: for every selection whose combined bounding box is `u`, the computed
scale factor is `min(targetWidthPt / currentWidth, targetHeightPt /
currentHeight) * 100`; at the concrete selection `(0,10,20,0)` with 11 cm ×
8 cm targets it is exactly `min(11·POINTS_PER_CM/20, 8·POINTS_PER_CM/10)·100`. -/
theorem scaleToFitFactor_formula :
    (∀ (selection : List Bounds) (targetWidthCm targetHeightCm : ℚ) (u : Bounds),
        getLayerBounds selection = some u →
        scaleToFitFactor selection targetWidthCm targetHeightCm =
          some (min (targetWidthCm * POINTS_PER_CM / (u.right - u.left))
              (targetHeightCm * POINTS_PER_CM / (u.top - u.bottom)) * 100)) ∧
    scaleToFitFactor [⟨0, 10, 20, 0⟩] 11 8 =
      some (min (11 * POINTS_PER_CM / 20) (8 * POINTS_PER_CM / 10) * 100) := by
  have hmain : ∀ (selection : List Bounds) (targetWidthCm targetHeightCm : ℚ) (u : Bounds),
      getLayerBounds selection = some u →
      scaleToFitFactor selection targetWidthCm targetHeightCm =
        some (min (targetWidthCm * POINTS_PER_CM / (u.right - u.left))
            (targetHeightCm * POINTS_PER_CM / (u.top - u.bottom)) * 100) := by
    intro sel tw th u hu
    cases sel with
    | nil => simp [getLayerBounds] at hu
    | cons b rest =>
      simp only [getLayerBounds, Option.some.injEq] at hu
      subst hu
      simp only [scaleToFitFactor, Option.some.injEq]
      rw [min_mul_of_nonneg _ _ (by norm_num : (0 : ℚ) ≤ 100)]
  refine ⟨hmain, ?_⟩
  rw [hmain [⟨0, 10, 20, 0⟩] 11 8 ⟨0, 10, 20, 0⟩ rfl]
  norm_num

/-- Witness for C3: the formula applied to the singleton selection
`(0,10,20,0)` with 11 cm × 8 cm targets. -/
theorem scaleToFitFactor_formula_witness :
    scaleToFitFactor [⟨0, 10, 20, 0⟩] 11 8 =
      some (min (11 * POINTS_PER_CM / (20 - 0)) (8 * POINTS_PER_CM / (10 - 0)) * 100) :=
  scaleToFitFactor_formula.1 [⟨0, 10, 20, 0⟩] 11 8 ⟨0, 10, 20, 0⟩ rfl

/-- C8: the BoundsMath operations are total past their empty-input guards:
`scaleToFitFactor` yields a value for every non-empty selection (including
zero-width/zero-height boxes), `getLayerBounds` yields a value for every
non-empty list, and `boundsIntersect` is a total Boolean test. -/
theorem boundsMathTotal :
    (∀ (selection : List Bounds) (targetWidthCm targetHeightCm : ℚ), selection ≠ [] →
        ∃ q, scaleToFitFactor selection targetWidthCm targetHeightCm = some q) ∧
    (∀ items : List Bounds, items ≠ [] → ∃ u, getLayerBounds items = some u) ∧
    (∀ a b : Bounds, boundsIntersect a b = true ∨ boundsIntersect a b = false) := by
  refine ⟨?_, ?_, ?_⟩
  · intro sel tw th hne
    cases sel with
    | nil => exact absurd rfl hne
    | cons b rest => exact ⟨_, rfl⟩
  · intro items hne
    cases items with
    | nil => exact absurd rfl hne
    | cons b rest => exact ⟨_, rfl⟩
  · intro a b
    cases h : boundsIntersect a b
    · exact Or.inr rfl
    · exact Or.inl rfl

/-- Witness for C8: the degenerate zero-width, zero-height selection still
yields a factor and a union without any error. -/
theorem boundsMathTotal_witness :
    (∃ q, scaleToFitFactor [⟨0, 0, 0, 0⟩] 11 8 = some q) ∧
    (∃ u, getLayerBounds [⟨0, 0, 0, 0⟩] = some u) :=
  ⟨boundsMathTotal.1 [⟨0, 0, 0, 0⟩] 11 8 (List.cons_ne_nil _ _),
   boundsMathTotal.2.1 [⟨0, 0, 0, 0⟩] (List.cons_ne_nil _ _)⟩

theorem collect_removePaths (toDelete : List ℕ) (items : List PageItem) :
    collectPathItems (removePaths toDelete items) =
      (collectPathItems items).filter (fun p => decide (p.1 ∉ toDelete)) := by
  induction items using removePaths.induct toDelete with
  | case1 => simp [removePaths, collectPathItems]
  | case2 i b rest hmem ih =>
    simp [removePaths, collectPathItems, hmem, ih, List.filter_cons]
  | case3 i b rest hmem ih =>
    simp [removePaths, collectPathItems, hmem, ih, List.filter_cons]
  | case4 cs rest ihcs ihrest =>
    simp [removePaths, collectPathItems, ihcs, ihrest, List.filter_append]
  | case5 i b rest hmem ih =>
    simp [removePaths, collectPathItems, hmem, ih, List.filter_cons]
  | case6 i b rest hmem ih =>
    simp [removePaths, collectPathItems, hmem, ih, List.filter_cons]

theorem mem_marked_iff (sponsorBounds : Bounds) (l : List (ℕ × Bounds))
    (hnd : (l.map Prod.fst).Nodup) (p : ℕ × Bounds) (hp : p ∈ l) :
    p.1 ∈ (l.filter (fun q => boundsIntersect q.2 sponsorBounds)).map Prod.fst ↔
      boundsIntersect p.2 sponsorBounds = true := by
  constructor
  · intro h
    obtain ⟨q, hq, hq1⟩ := List.mem_map.mp h
    have hql : q ∈ l := List.mem_of_mem_filter hq
    have hqi : boundsIntersect q.2 sponsorBounds = true := by
      simpa using List.of_mem_filter hq
    have hqp : q = p := List.inj_on_of_nodup_map hnd hql hp hq1
    rw [← hqp]
    exact hqi
  · intro h
    exact List.mem_map.mpr ⟨p, List.mem_filter.mpr ⟨hp, by simpa using h⟩, rfl⟩

/-- C5: when the collected hex path items have distinct identities, the paths
still collected after `removeOverlappingPathsInGroups` are exactly those
originally collected whose bounds do not intersect the sponsor bounds taken at
entry — intersecting ones are removed, non-intersecting ones remain in place
unmodified. -/
theorem removeOverlappingPathsInGroups_spec (hexItems : List PageItem) (sponsorBounds : Bounds)
    (hids : ((collectPathItems hexItems).map Prod.fst).Nodup) :
    collectPathItems (removeOverlappingPathsInGroups hexItems sponsorBounds) =
      (collectPathItems hexItems).filter (fun p => !boundsIntersect p.2 sponsorBounds) := by
  unfold removeOverlappingPathsInGroups
  rw [collect_removePaths]
  apply List.filter_congr
  intro p hp
  have hiff := mem_marked_iff sponsorBounds (collectPathItems hexItems) hids p hp
  cases hb : boundsIntersect p.2 sponsorBounds with
  | true =>
    have hmem := hiff.mpr hb
    simp [hb, hmem]
  | false =>
    have hnm : p.1 ∉
        ((collectPathItems hexItems).filter
          (fun q => boundsIntersect q.2 sponsorBounds)).map Prod.fst := by
      intro hm
      rw [hiff.mp hm] at hb
      cases hb
    simp [hb, hnm]

/-- Witness for C5: a hex tree with a top-level path, a nested path and a
compound path, against a unit sponsor box: exactly the two overlapping items
disappear and the non-overlapping nested path survives unchanged. -/
theorem removeOverlappingPathsInGroups_spec_witness :
    collectPathItems
        (removeOverlappingPathsInGroups
          [PageItem.path 0 ⟨0, 1, 1, 0⟩,
           PageItem.group [PageItem.path 1 ⟨5, 6, 6, 5⟩],
           PageItem.compound 2 ⟨0, 2, 2, 0⟩] ⟨0, 1, 1, 0⟩) =
      (collectPathItems
        [PageItem.path 0 ⟨0, 1, 1, 0⟩,
         PageItem.group [PageItem.path 1 ⟨5, 6, 6, 5⟩],
         PageItem.compound 2 ⟨0, 2, 2, 0⟩]).filter
        (fun p => !boundsIntersect p.2 (⟨0, 1, 1, 0⟩ : Bounds)) :=
  removeOverlappingPathsInGroups_spec _ _ (by simp [collectPathItems])

/-- Counterexample to C6 as stated: `positionGroupRelativeToGroup` is a major
orchestration step with no catch block, so a host failure (here `translate`
throwing "boom") leaves the function with the original message, which is not
of the form "Failed to …". -/
theorem positionGroupRelativeToGroup_unwrapped :
    positionGroupRelativeToGroupRun (Except.ok ⟨0, 10, 20, 0⟩) (Except.ok ⟨30, 320, 130, 20⟩)
        "Bottom Sponsor" (fun _ _ => Except.error ⟨"boom", 441⟩) =
      Except.error ⟨"boom", 441⟩ ∧
    ¬∃ s : String, "boom" = "Failed to " ++ s := by
  constructor
  · rfl
  · rintro ⟨s, hs⟩
    have hlen := congrArg String.length hs
    rw [String.length_append] at hlen
    have h4 : "boom".length = 4 := rfl
    have h10 : "Failed to ".length = 10 := rfl
    omega

/-- C6 amended: the wrapped steps rethrow "Failed to …" plus the original
message (shown for `importSVGByOpening` and for the shared `tryRethrow`
pattern), and every error raised in `main`'s body reaches its top-level
handler, which turns it into an alert carrying the message and line number —
`main` itself never propagates an exception. -/
theorem mainErrorRouting :
    (∀ body : Except JSError Unit, ∃ alertText, mainRun body = Except.ok alertText) ∧
    (∀ e : JSError,
        mainRun (Except.error e) =
          Except.ok (some ("Error: " ++ e.message ++ "\nLine: " ++ toString e.line))) ∧
    (∀ e : JSError,
        importSVGByOpening (Except.error e) =
          Except.error ⟨"Failed to import SVG: " ++ e.message, 366⟩) ∧
    (∀ (description : String) (rethrowLine : ℕ) (e : JSError),
        tryRethrow description rethrowLine (Except.error e) =
          Except.error ⟨description ++ e.message, rethrowLine⟩) := by
  refine ⟨?_, ?_, ?_, ?_⟩
  · intro body
    cases body with
    | ok _ => exact ⟨none, rfl⟩
    | error e => exact ⟨_, rfl⟩
  · intro e
    rfl
  · intro e
    rfl
  · intro description rethrowLine e
    rfl

end HexMaker
